import Mathlib

/-!
Verification of the pyeiscp library (eISCP network client).

The definitions below are a shallow embedding of `pyeiscp/protocol.py` and
`pyeiscp/connection.py`.  Bytes are modelled as `Nat` (values below 256 in
every packet the encoder builds), text as `String`/`List Char`, Python
exceptions as explicit error values, and the mutable object state of the
protocol handler as records that are threaded through the functions.
Text encoding is modelled on the ASCII subset of UTF-8; all eISCP protocol
traffic is ASCII.
-/

namespace Pyeiscp

/-! ## Text helpers shared by the embedding -/

/-- Python `str.isspace` characters stripped by `str.strip()`. -/
def pyIsSpace (c : Char) : Bool :=
  c = ' ' ∨ c = '\t' ∨ c = '\n' ∨ c = '\r' ∨ c = '\x0b' ∨ c = '\x0c'

/-- Python `str.strip()`. -/
def pyStrip (s : String) : String :=
  (((s.toList.dropWhile pyIsSpace).reverse.dropWhile pyIsSpace).reverse).asString

/-- Python `str.lower()` (ASCII scope). -/
def pyLower (s : String) : String :=
  (s.toList.map Char.toLower).asString

/-- `norm = lambda s: s.strip().lower()` from `command_to_iscp`. -/
def norm (s : String) : String := pyLower (pyStrip s)

/-- Python `str.isdigit()` (ASCII scope). -/
def pyIsDigit (s : String) : Bool :=
  ¬ s.toList.isEmpty ∧ s.toList.all Char.isDigit

/-- Decimal value of a digit string, `int(s)`. -/
def decVal (s : String) : Nat :=
  s.toList.foldl (fun a c => a * 10 + (c.toNat - 48)) 0

/-- `re.split` on a single-character class, keeping empty fields,
as in `re.split(r"[. ]", s)`. -/
def splitChars (cls : List Char) (cs : List Char) : List (List Char) :=
  cs.foldr
    (fun c acc =>
      if cls.contains c then [] :: acc
      else
        match acc with
        | [] => [[c]]
        | a :: rest => (c :: a) :: rest)
    [[]]

/-- `re.split(r"[:=]", s, 1)`: split at the first separator occurrence.
Only called when a separator is known to be present. -/
def splitFirst (cls : List Char) (cs : List Char) : List Char × List Char :=
  match cs with
  | [] => ([], [])
  | c :: rest =>
    if cls.contains c then ([], rest)
    else
      let p := splitFirst cls rest
      (c :: p.1, p.2)

/-- `hex(n)[2:].zfill(2).upper()` used by the range argument encoder. -/
def hex2 (n : Nat) : String :=
  let ds := Nat.toDigits 16 n
  ((List.replicate (2 - ds.length) '0') ++ ds).map Char.toUpper |>.asString

/-- UTF-8 encoding, modelled on the ASCII subset. -/
def encodeAscii (s : String) : List Nat := s.toList.map Char.toNat

/-- UTF-8 decoding, modelled on the ASCII subset: a byte `≥ 0x80` makes the
decode fail (in the source, a `UnicodeDecodeError`). -/
def decodeAscii (bs : List Nat) : Option String :=
  if bs.all (· < 128) then some ((bs.map Char.ofNat).asString) else none

/-! ## Packet codec (`ISCPMessage`, `eISCPPacket`) -/

/-- Big-endian 4-byte encoding used by `struct.pack("! 4s I I b 3s", ...)`. -/
def be32 (n : Nat) : List Nat :=
  [n / 16777216 % 256, n / 65536 % 256, n / 256 % 256, n % 256]

/-- Big-endian 4-byte value used by `struct.unpack`. -/
def be32val (bs : List Nat) : Nat :=
  bs.foldl (fun a b => a * 256 + b) 0

/-- The 16-byte eISCP header built by `eISCPPacket.__init__`:
magic `"ISCP"`, header size 16, data size, version 1, reserved zero. -/
def headerBytes (dataSize : Nat) : List Nat :=
  [73, 83, 67, 80] ++ be32 16 ++ be32 dataSize ++ [1, 0, 0, 0]

/-- The parsed header record returned by `eISCPPacket.parse_header`. -/
structure EHeader where
  headerSize : Nat
  dataSize : Nat
deriving DecidableEq

/-- `eISCPPacket.parse_header`: asserts a 16-byte input, magic `"ISCP"` and
header size 16.  `none` models a failing assertion (an exception that
propagates to the caller). -/
def parseHeader (bs : List Nat) : Option EHeader :=
  if bs.length = 16 then
    let magic := bs.take 4
    let headerSize := be32val ((bs.drop 4).take 4)
    let dataSize := be32val ((bs.drop 8).take 4)
    if magic = [73, 83, 67, 80] ∧ headerSize = 16 then
      some ⟨headerSize, dataSize⟩
    else none
  else none

/-- `str(ISCPMessage(data))`: `"!1" + data + "\r"`. -/
def iscpFormat (data : String) : String := "!1" ++ data ++ "\r"

/-- `ISCPMessage.parse`: requires the `"!1"` start, steps the end offset
past up to two CR/LF terminator characters, requires the EOF byte `0x1a`
there, and returns `data[2:eof_offset]`.  `none` models a failing
assertion. -/
def iscpParse (cs : List Char) : Option (List Char) :=
  if cs.take 2 = ['!', '1'] then
    match cs.reverse with
    | [] => none
    | c1 :: rest1 =>
      if c1 = '\n' ∨ c1 = '\r' then
        match rest1 with
        | [] => none
        | c2 :: rest2 =>
          if c2 = '\n' ∨ c2 = '\r' then
            match rest2 with
            | [] => none
            | c3 :: rest3 =>
              if c3 = '\x1a' then some (rest3.reverse.drop 2) else none
          else if c2 = '\x1a' then some (rest2.reverse.drop 2) else none
      else if c1 = '\x1a' then some (rest1.reverse.drop 2) else none
  else none

/-- `eISCPPacket.parse`: parse the header of the first 16 bytes, decode
`bytes[header_size : header_size + data_size]` and assert the decoded
length equals `data_size`. -/
def eiscpParse (bs : List Nat) : Option String :=
  (parseHeader (bs.take 16)).bind fun h =>
    (decodeAscii ((bs.drop h.headerSize).take h.dataSize)).bind fun data =>
      if data.length = h.dataSize then some data else none

/-- `command_to_packet`: `eISCPPacket(ISCPMessage(command)).get_raw()`. -/
def commandToPacket (command : String) : List Nat :=
  let m := iscpFormat command
  headerBytes m.length ++ encodeAscii m

/-- The payload decoder named by the spec round-trip property:
`eISCPPacket.parse` followed by `ISCPMessage.parse`. -/
def decodeCmd (bs : List Nat) : Option String :=
  (eiscpParse bs).bind fun s => (iscpParse s.toList).map List.asString

/-- An eISCP frame around a raw payload: header plus payload bytes. -/
def mkPacket (payload : List Nat) : List Nat :=
  headerBytes payload.length ++ payload

/-! ## Command registry and translator (`command_to_iscp`, `iscp_to_command`) -/

/-- An inbound wire command descriptor: `COMMANDS[zone][opcode]` carries a
pretty `name` and a `values` table mapping wire argument strings to
pretty argument names. -/
structure WireCmd where
  name : String
  values : List (String × String)
deriving DecidableEq

/-- An argument-encoding key of `VALUE_MAPPINGS[zone][opcode]`: either a
literal alias (pretty argument to wire value) or a bounded integer range
(`ValueRange(lo, hi)`, membership `lo ≤ v < hi`). -/
inductive VKey where
  | alias (pretty wire : String)
  | range (lo hi : Nat)
deriving DecidableEq

/-- Modelled from the spec: the command registry module `pyeiscp.commands`
is not under src/ (it is an externally supplied data table).  The spec
describes it as an opaque mapping zone to command-name to wire-opcode to
argument-encoding; this is a representative instance containing the
spec's own examples: main-zone `power` (opcode `PWR`, alias arguments)
and main-zone `volume` (opcode `MVL`, a bounded integer range encoded as
two-digit uppercase hex). -/
def COMMANDS : List (String × List (String × WireCmd)) :=
  [("main",
    [("PWR", ⟨"power", [("01", "on"), ("00", "standby")]⟩),
     ("MVL", ⟨"volume", []⟩)])]

/-- Modelled from the spec: `commands.COMMAND_MAPPINGS`, pretty command
name to wire opcode, per zone. -/
def COMMAND_MAPPINGS : List (String × List (String × String)) :=
  [("main", [("power", "PWR"), ("volume", "MVL")])]

/-- Modelled from the spec: `commands.VALUE_MAPPINGS`, argument encodings
per zone and opcode, in dict insertion order. -/
def VALUE_MAPPINGS : List (String × List (String × List VKey)) :=
  [("main",
    [("PWR", [VKey.alias "on" "01", VKey.alias "standby" "00"]),
     ("MVL", [VKey.range 0 100])])]

/-- Modelled from the spec: `commands.ZONE_MAPPINGS` (zone aliases); the
spec describes zone resolution only as defaulting to `"main"`, so the
alias table is empty. -/
def ZONE_MAPPINGS : List (String × String) := []

/-- A Python exception escaping the translator. -/
inductive PyErr where
  | valueError (msg : String)
  | indexError
  | typeError
deriving DecidableEq

/-- The Python `arguments` parameter of `command_to_iscp`: callers pass a
string or a list of strings (absent is `Option.none` outside). -/
inductive PyArg where
  | str (s : String)
  | list (l : List String)
deriving DecidableEq

/-- `arguments[0]`: first element of a list, first character of a string;
`IndexError` when empty, `TypeError` when `arguments` is `None`. -/
def pyIndex0 : Option PyArg → Except PyErr String
  | none => .error .typeError
  | some (.str s) =>
    match s.toList with
    | [] => .error .indexError
    | c :: _ => .ok (String.singleton c)
  | some (.list []) => .error .indexError
  | some (.list (a :: _)) => .ok a

/-- `commands.ZONE_MAPPINGS.get(zone, zone)`. -/
def zoneMappingsGet (zone : Option String) : Option String :=
  match zone with
  | none => none
  | some z => some (((ZONE_MAPPINGS.find? (·.1 = z)).map (·.2)).getD z)

/-- `zone in commands.COMMANDS` (a `None` zone is never a key). -/
def commandsHasZone (zone : Option String) : Bool :=
  match zone with
  | none => false
  | some z => COMMANDS.any (·.1 = z)

/-- `commands.COMMAND_MAPPINGS[group].get(command, command)`. -/
def commandMappingsGet (group : Option String) (cmd : String) : String :=
  match group with
  | none => cmd
  | some g =>
    match COMMAND_MAPPINGS.find? (·.1 = g) with
    | none => cmd
    | some zc => ((zc.2.find? (·.1 = cmd)).map (·.2)).getD cmd

/-- `prefix in commands.COMMANDS[group]`. -/
def commandsZoneHas (group : Option String) (prefx : String) : Bool :=
  match group with
  | none => false
  | some g =>
    match COMMANDS.find? (·.1 = g) with
    | none => false
    | some zc => zc.2.any (·.1 = prefx)

/-- The keys of `commands.VALUE_MAPPINGS[group][prefix]` in insertion
order. -/
def valueKeys (group : Option String) (prefx : String) : List VKey :=
  match group with
  | none => []
  | some g =>
    match VALUE_MAPPINGS.find? (·.1 = g) with
    | none => []
    | some zv => ((zv.2.find? (·.1 = prefx)).map (·.2)).getD []

/-- Step 1 of argument resolution: the exact alias lookup
`commands.VALUE_MAPPINGS[group][prefix][argument]`. -/
def aliasLookup (group : Option String) (prefx : String) (argument : String) :
    Option String :=
  (valueKeys group prefx).findSome? fun k =>
    match k with
    | .alias pretty wire => if pretty = argument then some wire else none
    | .range _ _ => none

/-- Step 2 of argument resolution: scan the keys for a `ValueRange`
containing the numeric argument and encode it as two-digit uppercase
hex. -/
def rangeScan (keys : List VKey) (argument : String) : Option String :=
  keys.findSome? fun k =>
    match k with
    | .alias _ _ => none
    | .range lo hi =>
      if pyIsDigit argument ∧ lo ≤ decVal argument ∧ decVal argument < hi then
        some (hex2 (decVal argument))
      else none

/-- `command_to_iscp(command, arguments=None, zone=None)`: parse the
free-text form when both `arguments` and `zone` are absent, then resolve
zone, command and argument against the registry.  A raised `ValueError`
is `.error (.valueError _)`; `arguments[0]` can also raise `IndexError`
or `TypeError`, which are returned as such. -/
def commandToIscp (command : String) (arguments : Option PyArg)
    (zone : Option String) : Except PyErr String :=
  let parsed : Except PyErr (String × Option PyArg × Option String) :=
    if arguments.isNone ∧ zone.isNone then
      let cs := command.toList
      if cs.contains ':' ∨ cs.contains '=' then
        let p := splitFirst [':', '='] cs
        let parts := (splitChars ['.', ' '] p.1).map (fun c => norm c.asString)
        let args := (splitChars [' ', ','] p.2).map (fun a => norm a.asString)
        if parts.length = 2 then
          .ok (parts.getD 1 "", some (.list args), some (parts.getD 0 ""))
        else
          .ok (parts.getD 0 "", some (.list args), some "main")
      else
        let parts := (splitChars ['.', ' '] cs).map (fun c => norm c.asString)
        if parts.length ≥ 3 then
          .ok (parts.getD 1 "", some (.list (parts.drop 3)), some (parts.getD 0 ""))
        else if parts.length = 2 then
          .ok (parts.getD 0 "", some (.list (parts.drop 1)), some "main")
        else
          .error (.valueError "need at least command and argument")
    else
      .ok (command, arguments, zone)
  match parsed with
  | .error e => .error e
  | .ok (cmd, args, zn) =>
    let group := zoneMappingsGet zn
    if ¬ commandsHasZone zn then
      .error (.valueError "not a valid zone")
    else
      let prefx := commandMappingsGet group cmd
      if ¬ commandsZoneHas group prefx then
        .error (.valueError "not a valid command")
      else
        match pyIndex0 args with
        | .error e => .error e
        | .ok argument =>
          match aliasLookup group prefx argument with
          | some v => .ok (prefx ++ v)
          | none =>
            match rangeScan (valueKeys group prefx) argument with
            | some v => .ok (prefx ++ v)
            | none => .error (.valueError "not a valid argument")

/-- The value component of a decoded inbound message: a pretty name or raw
string, a comma-split tuple, or a hex-parsed integer. -/
inductive CmdValue where
  | s (v : String)
  | tup (v : List String)
  | num (v : Int)
deriving DecidableEq

/-- A decoded update message `(zone, command name, value)`. -/
def Msg : Type := String × String × CmdValue

instance : DecidableEq Msg := by
  unfold Msg
  infer_instance

/-- `re.match("[+-]?[0-9a-f]+$", args, re.IGNORECASE)`: an optional sign
followed by one or more hex digits spanning the rest of the string
(`$` also matches just before one final newline). -/
def hexMatch (cs : List Char) : Bool :=
  let core := if cs.getLast? = some '\n' then cs.dropLast else cs
  let body :=
    match core with
    | '+' :: rest => rest
    | '-' :: rest => rest
    | rest => rest
  ¬ body.isEmpty ∧ body.all fun c =>
    c.isDigit ∨ ('a' ≤ c ∧ c ≤ 'f') ∨ ('A' ≤ c ∧ c ≤ 'F')

/-- Value of one hex digit character. -/
def hexDigitVal (c : Char) : Nat :=
  if c.isDigit then c.toNat - 48
  else if 'a' ≤ c ∧ c ≤ 'f' then c.toNat - 87
  else if 'A' ≤ c ∧ c ≤ 'F' then c.toNat - 55
  else 0

/-- `int(args, 16)` on a signed hex string (ignoring one trailing
newline, which `int` strips as whitespace). -/
def parseHexSigned (cs : List Char) : Int :=
  let core := if cs.getLast? = some '\n' then cs.dropLast else cs
  match core with
  | '+' :: rest => Int.ofNat (rest.foldl (fun a c => a * 16 + hexDigitVal c) 0)
  | '-' :: rest => -Int.ofNat (rest.foldl (fun a c => a * 16 + hexDigitVal c) 0)
  | rest => Int.ofNat (rest.foldl (fun a c => a * 16 + hexDigitVal c) 0)

/-- Split a string on commas into a tuple when one is present, else keep
the raw string, as the two `","` branches of `iscp_to_command` do. -/
def commaValue (s : String) : CmdValue :=
  if s.toList.contains ',' then
    .tup ((splitChars [','] s.toList).map List.asString)
  else .s s

/-- `iscp_to_command`: scan every zone's registry for the 3-character
opcode; resolve the remaining characters through the opcode's value
table, a signed hex integer parse, or a raw (comma-split) string.
`none` models the raised `ValueError` for an unknown opcode. -/
def iscpToCommand (iscpMessage : String) : Option Msg :=
  COMMANDS.findSome? fun zc =>
    let cmd := (iscpMessage.toList.take 3).asString
    let args := (iscpMessage.toList.drop 3).asString
    match zc.2.find? (·.1 = cmd) with
    | none => none
    | some entry =>
      match entry.2.values.find? (·.1 = args) with
      | some v => some (zc.1, entry.2.name, commaValue v.2)
      | none =>
        if hexMatch args.toList then
          some (zc.1, entry.2.name, .num (parseHexSigned args.toList))
        else
          some (zc.1, entry.2.name, commaValue args)

/-! ## Protocol handler outbound path (`AVR.command`) -/

/-- The observable state of an `AVR` protocol handler: whether a transport
is attached, the packets written to it, the update notifications
dispatched to the observer, and the log lines. -/
structure AVRState where
  transport : Bool
  writes : List (List Nat)
  notifications : List Msg
  logs : List String
deriving DecidableEq

/-- A fresh handler with a live transport. -/
def initAVR : AVRState :=
  { transport := true, writes := [], notifications := [], logs := [] }

/-- `AVR.command`: translate, catching `ValueError` (logged, nothing
sent); then write the packet, catching any exception from the write
(logged).  The second component is an exception propagating to the
caller. -/
def avrCommand (command : String) (arguments : Option PyArg)
    (zone : Option String) (st : AVRState) : AVRState × Option PyErr :=
  match commandToIscp command arguments zone with
  | .error (.valueError _) =>
    ({ st with logs := st.logs ++ ["Invalid message"] }, none)
  | .error e => (st, some e)
  | .ok msg =>
    if st.transport then
      ({ st with writes := st.writes ++ [commandToPacket msg] }, none)
    else
      ({ st with logs := st.logs ++ ["No transport found, unable to send command"] },
       none)

/-! ## Discovery service (`eISCPPacket.parse_info`, `DiscoveryProtocol`) -/

/-- The group dictionary captured by the discovery reply pattern of
`eISCPPacket.parse_info`. -/
structure DiscInfo where
  deviceCategory : Char
  modelName : String
  iscpPort : String
  areaCode : String
  identifier : String
deriving DecidableEq

/-- A `\w` word character of the reply pattern (ASCII scope). -/
def isWordChar (c : Char) : Bool := c.isAlphanum ∨ c = '_'

/-- The verbose regex of `parse_info`:
`!<digit>ECN<model, no slash>/<5 digits>/<2 word chars>/<up to 12 chars>`
matched from the start of the stripped response (`.` does not match a
newline; trailing characters are ignored). -/
def matchDiscovery (cs : List Char) : Option DiscInfo :=
  match cs with
  | '!' :: d :: 'E' :: 'C' :: 'N' :: rest =>
    if d.isDigit then
      let name := rest.takeWhile (· ≠ '/')
      match rest.dropWhile (· ≠ '/') with
      | '/' :: r2 =>
        let port := r2.take 5
        if port.length = 5 ∧ port.all Char.isDigit then
          match r2.drop 5 with
          | '/' :: r4 =>
            let area := r4.take 2
            if area.length = 2 ∧ area.all isWordChar then
              match r4.drop 2 with
              | '/' :: r6 =>
                let ident := (r6.takeWhile (· ≠ '\n')).take 12
                some ⟨d, name.asString, port.asString, area.asString,
                      ident.asString⟩
              | _ => none
            else none
          | _ => none
        else none
      | _ => none
    else none
  | _ => none

/-- `eISCPPacket.parse_info`: decode the full packet, strip the payload
and match it against the discovery reply pattern. -/
def parseInfo (bs : List Nat) : Option DiscInfo :=
  match eiscpParse bs with
  | none => none
  | some response => matchDiscovery (pyStrip response).toList

/-- A record emitted through the discovered callback:
`(addr[0], int(info['iscp_port']), info['model_name'],
info['identifier'])`. -/
structure DiscRecord where
  host : String
  port : Nat
  modelName : String
  identifier : String
deriving DecidableEq

/-- The state of one `DiscoveryProtocol` instance: the identifiers seen so
far and the records emitted. -/
structure DiscoveryState where
  discovered : List String
  records : List DiscRecord
deriving DecidableEq

/-- A freshly constructed `DiscoveryProtocol` instance. -/
def initDiscovery : DiscoveryState := ⟨[], []⟩

/-- `DiscoveryProtocol.datagram_received`: parse the reply; when it
matches and its identifier was not seen by this instance, record the
identifier and emit a discovery record. -/
def datagramReceived (st : DiscoveryState) (data : List Nat)
    (addr : String × Nat) : DiscoveryState :=
  match parseInfo data with
  | none => st
  | some info =>
    if st.discovered.contains info.identifier then st
    else
      { discovered := st.discovered ++ [info.identifier],
        records := st.records ++
          [⟨addr.1, decVal info.iscpPort, info.modelName, info.identifier⟩] }

/-- One discovery endpoint processing its replies in order. -/
def runEndpoint (replies : List (List Nat × (String × Nat))) : DiscoveryState :=
  replies.foldl (fun st r => datagramReceived st r.1 r.2) initDiscovery

/-- `Connection.discover` constructs a fresh `DiscoveryProtocol` for every
usable interface, so each interface's endpoint deduplicates with its own
`discovered` list; the discovery run's records are the union over the
endpoints. -/
def discoverRun (perInterface : List (List (List Nat × (String × Nat)))) :
    List DiscRecord :=
  (perInterface.map (fun replies => (runEndpoint replies).records)).flatten

/-! ## Protocol handler inbound path (`AVR.data_received`,
`AVR._assemble_buffer`) -/

/-- The decode attempt of `_assemble_buffer`'s try block:
`iscp_to_command(ISCPMessage.parse(data.decode()))`; `none` is the
caught failure (logged, packet dropped). -/
def payloadToMsg (data : List Nat) : Option Msg :=
  (decodeAscii data).bind fun s =>
    (iscpParse s.toList).bind fun m => iscpToCommand m.asString

/-- The outcome of one `_assemble_buffer` call: the remaining buffer, the
update notifications dispatched (in order), and whether an uncaught
exception (a failing `parse_header` assertion) escaped. -/
structure AsmOut where
  buffer : List Nat
  notes : List Msg
  raised : Bool
deriving DecidableEq

/-- `_assemble_buffer`, with explicit fuel (one unit per recursive call;
each call consumes at least 16 bytes, so `buf.length` fuel always
suffices): while at least 16 bytes and the declared payload are present,
extract one packet, decode it (failures are dropped), advance the buffer
by exactly `16 + data_size`, and recurse on a non-empty remainder. -/
def asmAux : Nat → List Nat → AsmOut
  | 0, buf => ⟨buf, [], false⟩
  | fuel + 1, buf =>
    if 16 ≤ buf.length then
      match parseHeader (buf.take 16) with
      | none => ⟨buf, [], true⟩
      | some hd =>
        if hd.dataSize ≤ buf.length - 16 then
          if (buf.drop (16 + hd.dataSize)).length ≠ 0 then
            ⟨(asmAux fuel (buf.drop (16 + hd.dataSize))).buffer,
             (payloadToMsg ((buf.drop 16).take hd.dataSize)).toList
               ++ (asmAux fuel (buf.drop (16 + hd.dataSize))).notes,
             (asmAux fuel (buf.drop (16 + hd.dataSize))).raised⟩
          else
            ⟨buf.drop (16 + hd.dataSize),
             (payloadToMsg ((buf.drop 16).take hd.dataSize)).toList, false⟩
        else ⟨buf, [], false⟩
    else ⟨buf, [], false⟩

/-- `AVR._assemble_buffer` on a given buffer. -/
def assembleBuffer (buf : List Nat) : AsmOut := asmAux buf.length buf

/-- The receive-side state of an `AVR` instance: its buffer, the update
notifications delivered so far, and whether an exception ever escaped
`data_received`. -/
structure RecvState where
  buffer : List Nat
  notes : List Msg
  raised : Bool
deriving DecidableEq

/-- `AVR.data_received`: append the chunk to the buffer and run
`_assemble_buffer`. -/
def dataReceived (st : RecvState) (chunk : List Nat) : RecvState :=
  let out := assembleBuffer (st.buffer ++ chunk)
  ⟨out.buffer, st.notes ++ out.notes, st.raised || out.raised⟩

/-- Deliver a sequence of chunks to a fresh handler. -/
def processChunks (chunks : List (List Nat)) : RecvState :=
  chunks.foldl dataReceived ⟨[], [], false⟩

/-! ## Connection manager (`Connection._reconnect`, retry interval) -/

/-- `Connection._increase_retry_interval`:
`min(max_retry_interval, 1.5 * retry_interval)`. -/
def increaseRetryInterval (maxRetry r : ℚ) : ℚ := min maxRetry (3 / 2 * r)

/-- `Connection._reset_retry_interval`: the interval is reset to 1 (also
its initial value in `Connection.create`). -/
def resetRetryInterval : ℚ := 1

/-- The retry interval after `k` consecutive failed connect attempts
(each `OSError` applies `_increase_retry_interval` once). -/
def retryIntervalAfter (maxRetry : ℚ) : Nat → ℚ
  | 0 => resetRetryInterval
  | k + 1 => increaseRetryInterval maxRetry (retryIntervalAfter maxRetry k)

/-- The connection state read by the `_reconnect` loop. -/
structure ReconState where
  retryInterval : ℚ
  closing : Bool

/-- The `while True` loop of `_reconnect` (not halted), driven by an
environment: `ok i` tells whether the `i`-th `create_connection` attempt
succeeds, and `closeAt i` whether `close()` runs during the `i`-th
backoff sleep.  The trace records the connection state at each
`create_connection` call; the loop body itself never reads `closing`. -/
def reconnectTrace (maxRetry : ℚ) (ok closeAt : Nat → Bool) :
    Nat → Nat → ReconState → List ReconState
  | 0, _, _ => []
  | fuel + 1, i, st =>
    st ::
      (if ok i then []
       else
         reconnectTrace maxRetry ok closeAt fuel (i + 1)
           ⟨increaseRetryInterval maxRetry st.retryInterval,
            st.closing || closeAt i⟩)

/-! ## Codec lemmas -/

theorem length_headerBytes (n : Nat) : (headerBytes n).length = 16 := by
  simp [headerBytes, be32]

theorem parseHeader_headerBytes (n : Nat) (h : n < 4294967296) :
    parseHeader (headerBytes n) = some ⟨16, n⟩ := by
  unfold parseHeader headerBytes be32 be32val
  norm_num
  omega

theorem length_encodeAscii (s : String) : (encodeAscii s).length = s.length := by
  simp only [encodeAscii, List.length_map]
  exact String.length_data s

theorem decodeAscii_encodeAscii (s : String)
    (h : s.toList.all (fun c => c.toNat < 128)) :
    decodeAscii (encodeAscii s) = some s := by
  unfold decodeAscii encodeAscii
  rw [if_pos]
  · rw [List.map_map]
    have hcomp : Char.ofNat ∘ Char.toNat = id := funext fun c => Char.ofNat_toNat c
    rw [hcomp, List.map_id, String.asString_toList]
  · simpa [List.all_map, Function.comp] using h

theorem toList_iscpFormat_eof (s : String) :
    (iscpFormat (s ++ "\x1a")).toList = '!' :: '1' :: (s.toList ++ ['\x1a', '\r']) := by
  unfold iscpFormat
  simp [String.toList, String.data_append]

theorem iscpParse_format_eof (s : String) :
    iscpParse (iscpFormat (s ++ "\x1a")).toList = some s.toList := by
  rw [toList_iscpFormat_eof]
  unfold iscpParse
  rw [if_pos (by simp)]
  have hrev : ('!' :: '1' :: (s.toList ++ ['\x1a', '\r'])).reverse
      = '\r' :: '\x1a' :: (s.toList.reverse ++ ['1', '!']) := by
    simp
  rw [hrev]
  simp

theorem length_iscpFormat_eof (s : String) :
    (iscpFormat (s ++ "\x1a")).length = s.length + 4 := by
  unfold iscpFormat
  simp only [String.length_append]
  have e1 : ("!1" : String).length = 2 := by decide
  have e2 : ("\x1a" : String).length = 1 := by decide
  have e3 : ("\r" : String).length = 1 := by decide
  omega

/-- Claim C1 (counterexample): decoding the encoded packet of the command
`"PWR01"` does not return `"PWR01"`; `ISCPMessage.parse` requires the EOF
byte `0x1a`, which the encoder never writes, so the decode fails. -/
theorem C1_counterexample :
    ¬ (decodeCmd (commandToPacket "PWR01") = some "PWR01") := by decide

/-- Claim C1 (amended): the payload decoder (`eISCPPacket.parse` then
`ISCPMessage.parse`) inverts the packet encoder only up to the EOF byte:
for every ASCII command text, decoding the encoded packet of
`text ++ EOF` returns `text`. -/
theorem C1_roundtrip_eof (s : String)
    (hascii : s.toList.all (fun c => c.toNat < 128))
    (hlen : s.length + 4 < 4294967296) :
    decodeCmd (commandToPacket (s ++ "\x1a")) = some s := by
  have hm : (iscpFormat (s ++ "\x1a")).length < 4294967296 := by
    rw [length_iscpFormat_eof]; exact hlen
  have hpkt : commandToPacket (s ++ "\x1a")
      = headerBytes (iscpFormat (s ++ "\x1a")).length
        ++ encodeAscii (iscpFormat (s ++ "\x1a")) := rfl
  have htk : (encodeAscii (iscpFormat (s ++ "\x1a"))).take
      (iscpFormat (s ++ "\x1a")).length = encodeAscii (iscpFormat (s ++ "\x1a")) := by
    rw [← length_encodeAscii (iscpFormat (s ++ "\x1a"))]
    exact List.take_length _
  have hfa : (iscpFormat (s ++ "\x1a")).toList.all (fun c => c.toNat < 128) := by
    rw [toList_iscpFormat_eof]
    simpa using hascii
  unfold decodeCmd eiscpParse
  rw [hpkt, List.take_left' (length_headerBytes _), parseHeader_headerBytes _ hm]
  simp only [Option.some_bind]
  rw [List.drop_left' (length_headerBytes _), htk, decodeAscii_encodeAscii _ hfa]
  simp only [Option.some_bind, eq_self_iff_true, if_true, iscpParse_format_eof,
    Option.map_some', String.asString_toList]

/-- Claim C1 (witness): the amended round trip at the concrete command
`"PWR01"`. -/
theorem C1_roundtrip_eof_witness :
    ("PWR01" : String).toList.all (fun c => c.toNat < 128)
    ∧ ("PWR01" : String).length + 4 < 4294967296
    ∧ decodeCmd (commandToPacket ("PWR01" ++ "\x1a")) = some "PWR01" :=
  ⟨by decide, by decide, C1_roundtrip_eof "PWR01" (by decide) (by decide)⟩

/-! ## Backoff lemmas -/

theorem retryIntervalAfter_eq (maxRetry : ℚ) (h1 : 1 ≤ maxRetry) (k : Nat) :
    retryIntervalAfter maxRetry k = min maxRetry ((3 / 2 : ℚ) ^ k) := by
  induction k with
  | zero =>
    simp only [retryIntervalAfter, resetRetryInterval, pow_zero]
    exact (min_eq_right h1).symm
  | succ k ih =>
    rw [retryIntervalAfter, ih]
    unfold increaseRetryInterval
    rw [mul_min_of_nonneg _ _ (by norm_num : (0 : ℚ) ≤ 3 / 2), ← min_assoc]
    have hmax : min maxRetry (3 / 2 * maxRetry) = maxRetry :=
      min_eq_left (by linarith)
    rw [hmax, ← pow_succ']

theorem reconnectTrace_allFail_get (maxRetry : ℚ) :
    ∀ (k fuel i : Nat) (st : ReconState), k < fuel →
      (reconnectTrace maxRetry (fun _ => false) (fun _ => false) fuel i st)[k]? =
        some ⟨(increaseRetryInterval maxRetry)^[k] st.retryInterval, st.closing⟩ := by
  intro k
  induction k with
  | zero =>
    intro fuel i st hk
    match fuel, hk with
    | fuel + 1, _ =>
      simp [reconnectTrace, Function.iterate_zero]
  | succ k ih =>
    intro fuel i st hk
    match fuel, hk with
    | fuel + 1, hk =>
      have hk' : k < fuel := Nat.lt_of_succ_lt_succ hk
      simp only [reconnectTrace, if_neg (by simp : ¬ false = true)]
      rw [List.getElem?_cons_succ, ih fuel (i + 1) _ hk']
      simp [Function.iterate_succ_apply]

theorem iterate_increase_reset (maxRetry : ℚ) (k : Nat) :
    (increaseRetryInterval maxRetry)^[k] resetRetryInterval
      = retryIntervalAfter maxRetry k := by
  induction k with
  | zero => simp [retryIntervalAfter]
  | succ k ih => rw [Function.iterate_succ_apply', ih, retryIntervalAfter]

/-- Claim C4: after `k` consecutive failed connect attempts the retry
interval equals `min(max_retry_interval, 1.5 ^ k)` and never exceeds
`max_retry_interval`; it is reset to 1 by `_reset_retry_interval` after a
success; and the `_reconnect` loop's state at its `k`-th connect attempt
(all attempts failing) carries exactly that interval. -/
theorem C4_backoff (maxRetry : ℚ) (h1 : 1 ≤ maxRetry) :
    (∀ k : Nat,
      retryIntervalAfter maxRetry k = min maxRetry ((3 / 2 : ℚ) ^ k)
      ∧ retryIntervalAfter maxRetry k ≤ maxRetry)
    ∧ resetRetryInterval = 1
    ∧ (∀ fuel k : Nat, k < fuel →
        ((reconnectTrace maxRetry (fun _ => false) (fun _ => false) fuel 0
            ⟨resetRetryInterval, false⟩)[k]?).map ReconState.retryInterval
          = some (retryIntervalAfter maxRetry k)) := by
  refine ⟨fun k => ⟨retryIntervalAfter_eq maxRetry h1 k, ?_⟩, rfl, ?_⟩
  · rw [retryIntervalAfter_eq maxRetry h1 k]
    exact min_le_left _ _
  · intro fuel k hk
    rw [reconnectTrace_allFail_get maxRetry k fuel 0 _ hk]
    simp [iterate_increase_reset]

/-- Claim C4 (witness): at `max_retry_interval = 300` and `k = 2` the
interval is `min 300 (1.5 ^ 2)` and does not exceed the cap. -/
theorem C4_backoff_witness :
    (1 : ℚ) ≤ 300
    ∧ retryIntervalAfter 300 2 = min 300 ((3 / 2 : ℚ) ^ 2)
    ∧ retryIntervalAfter 300 2 ≤ 300 :=
  ⟨by norm_num, ((C4_backoff 300 (by norm_num)).1 2).1, ((C4_backoff 300 (by norm_num)).1 2).2⟩

/-! ## Discovery dedup (claim C5) -/

/-- Claim C5 (counterexample): `Connection.discover` creates a fresh
`DiscoveryProtocol` per interface, each with its own `discovered` list,
so two replies carrying identifier `"ID0001"` on two interfaces yield
two discovery records, not one. -/
theorem C5_counterexample :
    discoverRun
        [[(mkPacket (encodeAscii "!1ECNX-A1/60128/DX/ID0001"), ("10.0.0.5", 0))],
         [(mkPacket (encodeAscii "!1ECNX-B2/60128/DX/ID0001"), ("10.0.1.5", 0))]]
      = [⟨"10.0.0.5", 60128, "X-A1", "ID0001"⟩, ⟨"10.0.1.5", 60128, "X-B2", "ID0001"⟩]
    ∧ ¬ ((discoverRun
        [[(mkPacket (encodeAscii "!1ECNX-A1/60128/DX/ID0001"), ("10.0.0.5", 0))],
         [(mkPacket (encodeAscii "!1ECNX-B2/60128/DX/ID0001"), ("10.0.1.5", 0))]]).length = 1) := by
  decide

/-- Claim C5 (amended): within one discovery endpoint (one
`DiscoveryProtocol` instance), two replies carrying the same
`device_identifier` yield exactly one discovery record — the duplicate
is suppressed by the `discovered` list.  Dedup state is per endpoint, so
replies arriving on two different interfaces are deduplicated
independently (one record per interface). -/
theorem C5_same_endpoint_dedup (d1 d2 : List Nat) (a1 a2 : String × Nat)
    (i1 i2 : DiscInfo) (h1 : parseInfo d1 = some i1) (h2 : parseInfo d2 = some i2)
    (hid : i2.identifier = i1.identifier) :
    runEndpoint [(d1, a1), (d2, a2)] =
      ⟨[i1.identifier], [⟨a1.1, decVal i1.iscpPort, i1.modelName, i1.identifier⟩]⟩ := by
  unfold runEndpoint initDiscovery
  simp only [List.foldl_cons, List.foldl_nil]
  rw [show datagramReceived ⟨[], []⟩ d1 a1
      = ⟨[i1.identifier], [⟨a1.1, decVal i1.iscpPort, i1.modelName, i1.identifier⟩]⟩ by
    unfold datagramReceived
    rw [h1]
    simp]
  unfold datagramReceived
  rw [h2]
  simp [hid]

/-- Claim C5 (witness): the amended dedup at two concrete replies
carrying identifier `"ID0001"` received by the same endpoint. -/
theorem C5_same_endpoint_dedup_witness :
    parseInfo (mkPacket (encodeAscii "!1ECNX-A1/60128/DX/ID0001"))
      = some ⟨'1', "X-A1", "60128", "DX", "ID0001"⟩
    ∧ parseInfo (mkPacket (encodeAscii "!1ECNX-B2/60128/DX/ID0001"))
      = some ⟨'1', "X-B2", "60128", "DX", "ID0001"⟩
    ∧ runEndpoint
        [(mkPacket (encodeAscii "!1ECNX-A1/60128/DX/ID0001"), ("10.0.0.5", 0)),
         (mkPacket (encodeAscii "!1ECNX-B2/60128/DX/ID0001"), ("10.0.0.5", 1))]
      = ⟨["ID0001"], [⟨"10.0.0.5", 60128, "X-A1", "ID0001"⟩]⟩ :=
  ⟨by decide, by decide,
    C5_same_endpoint_dedup _ _ ("10.0.0.5", 0) ("10.0.0.5", 1)
      ⟨'1', "X-A1", "60128", "DX", "ID0001"⟩ ⟨'1', "X-B2", "60128", "DX", "ID0001"⟩
      (by decide) (by decide) rfl⟩

instance {ε α : Type _} [DecidableEq ε] [DecidableEq α] : DecidableEq (Except ε α) :=
  fun x y =>
    match x, y with
    | .ok a, .ok b => if h : a = b then isTrue (by rw [h]) else isFalse (by simp [h])
    | .error a, .error b => if h : a = b then isTrue (by rw [h]) else isFalse (by simp [h])
    | .ok _, .error _ => isFalse (by simp)
    | .error _, .ok _ => isFalse (by simp)

/-! ## Reconnect loop ignores the closing flag (claim C6) -/

/-- Claim C6: refuted on the code.  With the first connect attempt
failing and `close()` arriving during the first backoff sleep, the
`_reconnect` loop wakes and calls `create_connection` again: its second
attempt happens with `closing` already set, because the loop body never
re-reads the `closing` flag. -/
theorem C6_connect_attempt_after_close :
    (reconnectTrace 300 (fun _ => false) (fun i => i == 0) 2 0
        ⟨resetRetryInterval, false⟩).map ReconState.closing
      = [false, true] := by
  decide

/-! ## Pre-split calling convention (claim C7) -/

/-- Claim C7: refuted on the code.  The docstring's own pre-split example
`command_to_iscp('power', 'on', zone='main')` indexes `arguments[0]` of
the string `"on"`, looks up the argument `"o"` and raises `ValueError`,
while the equivalent free-text call `command_to_iscp('main.power=on')`
returns the wire opcode `"PWR01"`. -/
theorem C7_presplit_vs_freetext :
    commandToIscp "power" (some (.str "on")) (some "main")
      = .error (.valueError "not a valid argument")
    ∧ commandToIscp "main.power=on" none none = .ok "PWR01" := by
  decide

/-! ## Outbound error handling (claims C8 and C10) -/

/-- Claim C8 (counterexample): sending the unknown command
`"main.bogus=on"` makes the translator raise `ValueError`, but
`AVR.command` catches it: nothing is raised to the caller of `send`
(refuting the claim that the error is surfaced to the caller). -/
theorem C8_counterexample :
    commandToIscp "main.bogus=on" none none
      = .error (.valueError "not a valid command")
    ∧ (avrCommand "main.bogus=on" none none initAVR).2 = none
    ∧ (avrCommand "main.bogus=on" none none initAVR).1.writes = [] := by
  decide

/-- Claim C8 (amended): a translator `ValueError` (unknown zone, command
or argument) is caught and logged inside `AVR.command`: it is not
raised to the caller of `send`, it is never delivered to observers, and
nothing is written to the transport. -/
theorem C8_translator_error_contained (cmd : String) (args : Option PyArg)
    (zone : Option String) (st : AVRState) (e : String)
    (h : commandToIscp cmd args zone = .error (.valueError e)) :
    (avrCommand cmd args zone st).2 = none
    ∧ (avrCommand cmd args zone st).1.writes = st.writes
    ∧ (avrCommand cmd args zone st).1.notifications = st.notifications := by
  unfold avrCommand
  rw [h]
  exact ⟨rfl, rfl, rfl⟩

/-- Claim C8 (witness): the amended containment at the concrete unknown
command `"main.bogus=on"`. -/
theorem C8_translator_error_contained_witness :
    commandToIscp "main.bogus=on" none none
      = .error (.valueError "not a valid command")
    ∧ ((avrCommand "main.bogus=on" none none initAVR).2 = none
      ∧ (avrCommand "main.bogus=on" none none initAVR).1.writes = initAVR.writes
      ∧ (avrCommand "main.bogus=on" none none initAVR).1.notifications
          = initAVR.notifications) :=
  ⟨by decide,
    C8_translator_error_contained "main.bogus=on" none none initAVR
      "not a valid command" (by decide)⟩

/-- Classifies a translation outcome that `AVR.command`'s `except
ValueError` handler can contain: success, or a `ValueError`. -/
def benignTranslation : Except PyErr String → Bool
  | .ok _ => true
  | .error (.valueError _) => true
  | .error _ => false

/-- Claim C10 (counterexample): `AVR.command("main power on")` propagates
an exception: the free-text parser sets `arguments = parts[3:] = []` for
a three-part command, and `arguments[0]` raises `IndexError`, which the
`except ValueError` handler does not catch. -/
theorem C10_counterexample :
    (avrCommand "main power on" none none initAVR).2 = some PyErr.indexError := by
  decide

/-- Claim C10 (amended): `AVR.command` returns normally whenever the
translation succeeds or fails with `ValueError`: the `ValueError` is
caught and logged without writing, and with an absent transport the
write failure is caught and logged.  (Translation can also raise
`IndexError`/`TypeError`, which propagate.) -/
theorem C10_no_exception_when_benign (cmd : String) (args : Option PyArg)
    (zone : Option String) (st : AVRState)
    (h : benignTranslation (commandToIscp cmd args zone) = true) :
    (avrCommand cmd args zone st).2 = none
    ∧ (∀ e, commandToIscp cmd args zone = Except.error e →
        (avrCommand cmd args zone st).1.writes = st.writes)
    ∧ (st.transport = false →
        (avrCommand cmd args zone st).1.writes = st.writes) := by
  unfold avrCommand
  cases hr : commandToIscp cmd args zone with
  | ok m =>
    refine ⟨?_, ?_, ?_⟩
    · by_cases ht : st.transport <;> simp [ht]
    · intro e he
      exact absurd he (by simp)
    · intro ht
      simp [ht]
  | error e =>
    rw [hr] at h
    cases e with
    | valueError m => exact ⟨rfl, fun _ _ => rfl, fun _ => rfl⟩
    | indexError => simp [benignTranslation] at h
    | typeError => simp [benignTranslation] at h

/-- Claim C10 (witness): the amended statement at the concrete command
`"main.power=on"` with an absent transport. -/
theorem C10_no_exception_when_benign_witness :
    benignTranslation (commandToIscp "main.power=on" none none) = true
    ∧ ((avrCommand "main.power=on" none none
          ⟨false, [], [], []⟩).2 = none
      ∧ (∀ e, commandToIscp "main.power=on" none none = Except.error e →
          (avrCommand "main.power=on" none none ⟨false, [], [], []⟩).1.writes
            = (⟨false, [], [], []⟩ : AVRState).writes)
      ∧ ((⟨false, [], [], []⟩ : AVRState).transport = false →
          (avrCommand "main.power=on" none none ⟨false, [], [], []⟩).1.writes
            = (⟨false, [], [], []⟩ : AVRState).writes)) :=
  ⟨by decide,
    C10_no_exception_when_benign "main.power=on" none none ⟨false, [], [], []⟩ (by decide)⟩

/-! ## Buffer assembly lemmas -/

theorem asmAux_nil (fuel : Nat) : asmAux fuel [] = ⟨[], [], false⟩ := by
  cases fuel <;> simp [asmAux]

theorem asmAux_irrel (f : Nat) :
    ∀ (g : Nat) (buf : List Nat), buf.length ≤ f → buf.length ≤ g →
      asmAux f buf = asmAux g buf := by
  induction f using Nat.strong_induction_on with
  | _ f ih =>
    intro g buf hf hg
    rcases buf with _ | ⟨b, bs⟩
    · rw [asmAux_nil, asmAux_nil]
    · cases f with
      | zero => simp at hf
      | succ f =>
        cases g with
        | zero => simp at hg
        | succ g =>
          simp only [asmAux]
          by_cases h16 : 16 ≤ (b :: bs).length
          · simp only [if_pos h16]
            cases hph : parseHeader ((b :: bs).take 16) with
            | none => rfl
            | some hd =>
              by_cases hds : hd.dataSize ≤ (b :: bs).length - 16
              · simp only [if_pos hds]
                have hrl : ((b :: bs).drop (16 + hd.dataSize)).length
                    = (b :: bs).length - (16 + hd.dataSize) := List.length_drop _ _
                have h1 : ((b :: bs).drop (16 + hd.dataSize)).length ≤ f := by omega
                have h2 : ((b :: bs).drop (16 + hd.dataSize)).length ≤ g := by omega
                rw [ih f (Nat.lt_succ_self f) g _ h1 h2]
              · simp only [if_neg hds]
          · simp only [if_neg h16]

theorem assembleBuffer_eq (buf : List Nat) :
    assembleBuffer buf =
      if 16 ≤ buf.length then
        match parseHeader (buf.take 16) with
        | none => ⟨buf, [], true⟩
        | some hd =>
          if hd.dataSize ≤ buf.length - 16 then
            if (buf.drop (16 + hd.dataSize)).length ≠ 0 then
              ⟨(assembleBuffer (buf.drop (16 + hd.dataSize))).buffer,
               (payloadToMsg ((buf.drop 16).take hd.dataSize)).toList
                 ++ (assembleBuffer (buf.drop (16 + hd.dataSize))).notes,
               (assembleBuffer (buf.drop (16 + hd.dataSize))).raised⟩
            else
              ⟨buf.drop (16 + hd.dataSize),
               (payloadToMsg ((buf.drop 16).take hd.dataSize)).toList, false⟩
          else ⟨buf, [], false⟩
      else ⟨buf, [], false⟩ := by
  unfold assembleBuffer
  rw [asmAux_irrel buf.length (buf.length + 1) buf le_rfl (Nat.le_succ _)]
  simp only [asmAux]
  by_cases h16 : 16 ≤ buf.length
  · simp only [if_pos h16]
    cases hph : parseHeader (buf.take 16) with
    | none => rfl
    | some hd =>
      by_cases hds : hd.dataSize ≤ buf.length - 16
      · simp only [if_pos hds]
        have hrl : (buf.drop (16 + hd.dataSize)).length
            = buf.length - (16 + hd.dataSize) := List.length_drop _ _
        rw [asmAux_irrel buf.length (buf.drop (16 + hd.dataSize)).length _ (by omega) le_rfl]
      · simp only [if_neg hds]
  · simp only [if_neg h16]

theorem assembleBuffer_nil : assembleBuffer ([] : List Nat) = ⟨[], [], false⟩ := rfl

theorem assembleBuffer_short (buf : List Nat) (h : buf.length < 16) :
    assembleBuffer buf = ⟨buf, [], false⟩ := by
  rw [assembleBuffer_eq, if_neg (by omega)]

theorem assembleBuffer_eq_none (buf : List Nat) (h16 : 16 ≤ buf.length)
    (hph : parseHeader (buf.take 16) = none) :
    assembleBuffer buf = ⟨buf, [], true⟩ := by
  rw [assembleBuffer_eq, if_pos h16]
  split
  · rfl
  · next hd heq => rw [hph] at heq; exact absurd heq (by simp)

theorem assembleBuffer_eq_wait (buf : List Nat) (hd : EHeader) (h16 : 16 ≤ buf.length)
    (hph : parseHeader (buf.take 16) = some hd)
    (hds : ¬ hd.dataSize ≤ buf.length - 16) :
    assembleBuffer buf = ⟨buf, [], false⟩ := by
  rw [assembleBuffer_eq, if_pos h16]
  split
  · next heq => rw [hph] at heq; exact absurd heq (by simp)
  · next hd' heq =>
    rw [hph] at heq
    injection heq with he
    subst he
    rw [if_neg hds]

theorem assembleBuffer_eq_frame (buf : List Nat) (hd : EHeader) (h16 : 16 ≤ buf.length)
    (hph : parseHeader (buf.take 16) = some hd)
    (hds : hd.dataSize ≤ buf.length - 16) :
    assembleBuffer buf =
      if (buf.drop (16 + hd.dataSize)).length ≠ 0 then
        ⟨(assembleBuffer (buf.drop (16 + hd.dataSize))).buffer,
         (payloadToMsg ((buf.drop 16).take hd.dataSize)).toList
           ++ (assembleBuffer (buf.drop (16 + hd.dataSize))).notes,
         (assembleBuffer (buf.drop (16 + hd.dataSize))).raised⟩
      else
        ⟨buf.drop (16 + hd.dataSize),
         (payloadToMsg ((buf.drop 16).take hd.dataSize)).toList, false⟩ := by
  rw [assembleBuffer_eq, if_pos h16]
  split
  · next heq => rw [hph] at heq; exact absurd heq (by simp)
  · next hd' heq =>
    rw [hph] at heq
    injection heq with he
    subst he
    rw [if_pos hds]

theorem assembleBuffer_single (pl : List Nat) (hlen : pl.length < 4294967296) :
    assembleBuffer (mkPacket pl) = ⟨[], (payloadToMsg pl).toList, false⟩ := by
  unfold mkPacket
  have hL : (headerBytes pl.length ++ pl).length = 16 + pl.length := by
    simp [length_headerBytes]
  have hph : parseHeader ((headerBytes pl.length ++ pl).take 16)
      = some ⟨16, pl.length⟩ := by
    rw [List.take_left' (length_headerBytes _)]
    exact parseHeader_headerBytes _ hlen
  have hfr := assembleBuffer_eq_frame (headerBytes pl.length ++ pl) ⟨16, pl.length⟩
    (by omega) hph (by show pl.length ≤ (headerBytes pl.length ++ pl).length - 16; omega)
  dsimp only at hfr
  have hrest : (headerBytes pl.length ++ pl).drop (16 + pl.length) = [] :=
    List.drop_eq_nil_of_le (by omega)
  have hdata : ((headerBytes pl.length ++ pl).drop 16).take pl.length = pl := by
    rw [List.drop_left' (length_headerBytes _)]
    exact List.take_length pl
  rw [hfr, hrest, hdata]
  simp

theorem assembleBuffer_append (n : Nat) :
    ∀ (b1 b2 : List Nat), b1.length ≤ n →
      (assembleBuffer b1).raised = false →
      assembleBuffer (b1 ++ b2) =
        ⟨(assembleBuffer ((assembleBuffer b1).buffer ++ b2)).buffer,
         (assembleBuffer b1).notes
           ++ (assembleBuffer ((assembleBuffer b1).buffer ++ b2)).notes,
         (assembleBuffer ((assembleBuffer b1).buffer ++ b2)).raised⟩ := by
  induction n using Nat.strong_induction_on with
  | _ n ih =>
    intro b1 b2 hn hr
    by_cases h16 : 16 ≤ b1.length
    · cases hph : parseHeader (b1.take 16) with
      | none =>
        rw [assembleBuffer_eq_none b1 h16 hph] at hr
        exact absurd hr (by simp)
      | some hd =>
        by_cases hds : hd.dataSize ≤ b1.length - 16
        · have hLa : (b1 ++ b2).length = b1.length + b2.length := List.length_append _ _
          have htake : (b1 ++ b2).take 16 = b1.take 16 := by
            rw [List.take_append_eq_append_take,
              show 16 - b1.length = 0 by omega, List.take_zero, List.append_nil]
          have hd16 : (b1.drop 16).length = b1.length - 16 := List.length_drop _ _
          have hdata : ((b1 ++ b2).drop 16).take hd.dataSize
              = (b1.drop 16).take hd.dataSize := by
            rw [List.drop_append_eq_append_drop,
              show 16 - b1.length = 0 by omega, List.drop_zero,
              List.take_append_eq_append_take,
              show hd.dataSize - (b1.drop 16).length = 0 by omega,
              List.take_zero, List.append_nil]
          have hrest : (b1 ++ b2).drop (16 + hd.dataSize)
              = b1.drop (16 + hd.dataSize) ++ b2 := by
            rw [List.drop_append_eq_append_drop,
              show 16 + hd.dataSize - b1.length = 0 by omega, List.drop_zero]
          have hb1 := assembleBuffer_eq_frame b1 hd h16 hph hds
          have hfr2 := assembleBuffer_eq_frame (b1 ++ b2) hd (by omega)
            (by rw [htake]; exact hph) (by omega)
          rw [hfr2, hrest, hdata]
          have hrl : (b1.drop (16 + hd.dataSize)).length
              = b1.length - (16 + hd.dataSize) := List.length_drop _ _
          by_cases hr1 : (b1.drop (16 + hd.dataSize)).length ≠ 0
          · rw [hb1, if_pos hr1] at hr ⊢
            have hrr : (assembleBuffer (b1.drop (16 + hd.dataSize))).raised = false := hr
            have happ := ih (b1.drop (16 + hd.dataSize)).length (by omega)
              (b1.drop (16 + hd.dataSize)) b2 le_rfl hrr
            rw [if_pos (by simp [List.length_append]; omega), happ]
            simp [List.append_assoc]
          · rw [hb1, if_neg hr1] at hr ⊢
            have hnil : b1.drop (16 + hd.dataSize) = [] :=
              List.eq_nil_of_length_eq_zero (by omega)
            rw [hnil]
            simp only [List.nil_append]
            by_cases hb2 : b2.length ≠ 0
            · rw [if_pos hb2]
            · rw [if_neg hb2]
              have hb2nil : b2 = [] := List.eq_nil_of_length_eq_zero (by omega)
              subst hb2nil
              rw [assembleBuffer_nil]
              simp
        · rw [assembleBuffer_eq_wait b1 hd h16 hph hds]
          simp only [List.nil_append]
    · rw [assembleBuffer_short b1 (by omega)]
      simp only [List.nil_append]

theorem assembleBuffer_raised_append (n : Nat) :
    ∀ (b1 b2 : List Nat), b1.length ≤ n →
      (assembleBuffer b1).raised = true →
      (assembleBuffer (b1 ++ b2)).raised = true := by
  induction n using Nat.strong_induction_on with
  | _ n ih =>
    intro b1 b2 hn hr
    by_cases h16 : 16 ≤ b1.length
    · cases hph : parseHeader (b1.take 16) with
      | none =>
        have htake : (b1 ++ b2).take 16 = b1.take 16 := by
          rw [List.take_append_eq_append_take,
            show 16 - b1.length = 0 by omega, List.take_zero, List.append_nil]
        rw [assembleBuffer_eq_none (b1 ++ b2)
          (by simp [List.length_append]; omega) (by rw [htake]; exact hph)]
      | some hd =>
        by_cases hds : hd.dataSize ≤ b1.length - 16
        · have hLa : (b1 ++ b2).length = b1.length + b2.length := List.length_append _ _
          have htake : (b1 ++ b2).take 16 = b1.take 16 := by
            rw [List.take_append_eq_append_take,
              show 16 - b1.length = 0 by omega, List.take_zero, List.append_nil]
          have hrest : (b1 ++ b2).drop (16 + hd.dataSize)
              = b1.drop (16 + hd.dataSize) ++ b2 := by
            rw [List.drop_append_eq_append_drop,
              show 16 + hd.dataSize - b1.length = 0 by omega, List.drop_zero]
          have hb1 := assembleBuffer_eq_frame b1 hd h16 hph hds
          have hrl : (b1.drop (16 + hd.dataSize)).length
              = b1.length - (16 + hd.dataSize) := List.length_drop _ _
          by_cases hr1 : (b1.drop (16 + hd.dataSize)).length ≠ 0
          · rw [hb1, if_pos hr1] at hr
            have := ih (b1.drop (16 + hd.dataSize)).length (by omega)
              (b1.drop (16 + hd.dataSize)) b2 le_rfl hr
            rw [assembleBuffer_eq_frame (b1 ++ b2) hd (by omega)
              (by rw [htake]; exact hph) (by omega), hrest,
              if_pos (by simp [List.length_append]; omega)]
            exact this
          · rw [hb1, if_neg hr1] at hr
            exact absurd hr (by simp)
        · rw [assembleBuffer_eq_wait b1 hd h16 hph hds] at hr
          exact absurd hr (by simp)
    · rw [assembleBuffer_short b1 (by omega)] at hr
      exact absurd hr (by simp)

theorem assembleBuffer_idem (n : Nat) :
    ∀ (b : List Nat), b.length ≤ n →
      (assembleBuffer b).raised = false →
      assembleBuffer (assembleBuffer b).buffer
        = ⟨(assembleBuffer b).buffer, [], false⟩ := by
  induction n using Nat.strong_induction_on with
  | _ n ih =>
    intro b hn hr
    by_cases h16 : 16 ≤ b.length
    · cases hph : parseHeader (b.take 16) with
      | none =>
        rw [assembleBuffer_eq_none b h16 hph] at hr
        exact absurd hr (by simp)
      | some hd =>
        by_cases hds : hd.dataSize ≤ b.length - 16
        · have hb := assembleBuffer_eq_frame b hd h16 hph hds
          have hrl : (b.drop (16 + hd.dataSize)).length
              = b.length - (16 + hd.dataSize) := List.length_drop _ _
          by_cases hr1 : (b.drop (16 + hd.dataSize)).length ≠ 0
          · rw [hb, if_pos hr1] at hr ⊢
            exact ih (b.drop (16 + hd.dataSize)).length (by omega)
              (b.drop (16 + hd.dataSize)) le_rfl hr
          · rw [hb, if_neg hr1]
            have hnil : b.drop (16 + hd.dataSize) = [] :=
              List.eq_nil_of_length_eq_zero (by omega)
            rw [hnil]
            exact assembleBuffer_nil
        · rw [assembleBuffer_eq_wait b hd h16 hph hds]
          exact assembleBuffer_eq_wait b hd h16 hph hds
    · rw [assembleBuffer_short b (by omega)]
      exact assembleBuffer_short b (by omega)

/-! ## Stream reassembly (claims C2, C3, C9) -/

/-- The byte stream of a sequence of framed payloads. -/
def streamOf (pls : List (List Nat)) : List Nat := (pls.map mkPacket).flatten

/-- A sequence of payloads paired with the messages they decode to: each
payload decodes successfully and fits the 32-bit size field. -/
def validList : List (List Nat) → List Msg → Bool
  | [], [] => true
  | pl :: pls, m :: ms =>
    decide (payloadToMsg pl = some m) && decide (pl.length < 4294967296)
      && validList pls ms
  | _, _ => false

theorem assembleBuffer_stream : ∀ (pls : List (List Nat)) (msgs : List Msg),
    validList pls msgs = true → assembleBuffer (streamOf pls) = ⟨[], msgs, false⟩ := by
  intro pls
  induction pls with
  | nil =>
    intro msgs h
    cases msgs with
    | nil => exact assembleBuffer_nil
    | cons m ms => simp [validList] at h
  | cons pl pls ih =>
    intro msgs h
    cases msgs with
    | nil => simp [validList] at h
    | cons m ms =>
      simp only [validList, Bool.and_eq_true, decide_eq_true_eq] at h
      obtain ⟨⟨hm, hlen⟩, hrest⟩ := h
      have hstream : streamOf (pl :: pls) = mkPacket pl ++ streamOf pls := by
        simp [streamOf]
      rw [hstream]
      have h1 : assembleBuffer (mkPacket pl) = ⟨[], [m], false⟩ := by
        rw [assembleBuffer_single pl hlen, hm]
        rfl
      have happ := assembleBuffer_append (mkPacket pl).length (mkPacket pl)
        (streamOf pls) le_rfl (by rw [h1])
      rw [happ, h1]
      simp only [List.nil_append]
      rw [ih ms hrest]
      rfl

theorem foldl_dataReceived : ∀ (cs : List (List Nat)) (b : List Nat) (ns : List Msg),
    assembleBuffer b = ⟨b, [], false⟩ →
    (assembleBuffer (b ++ cs.flatten)).raised = false →
    cs.foldl dataReceived ⟨b, ns, false⟩ =
      ⟨(assembleBuffer (b ++ cs.flatten)).buffer,
       ns ++ (assembleBuffer (b ++ cs.flatten)).notes, false⟩ := by
  intro cs
  induction cs with
  | nil =>
    intro b ns hstable hok
    simp only [List.foldl_nil, List.flatten_nil, List.append_nil]
    rw [hstable]
    simp
  | cons c cs ih =>
    intro b ns hstable hok
    have hassoc : b ++ (c :: cs).flatten = (b ++ c) ++ cs.flatten := by
      rw [List.flatten_cons, ← List.append_assoc]
    have hSr : (assembleBuffer (b ++ c)).raised = false := by
      cases hx : (assembleBuffer (b ++ c)).raised with
      | false => rfl
      | true =>
        have hraise := assembleBuffer_raised_append (b ++ c).length (b ++ c)
          cs.flatten le_rfl hx
        rw [← hassoc] at hraise
        rw [hraise] at hok
        exact absurd hok (by simp)
    have hstep : dataReceived ⟨b, ns, false⟩ c
        = ⟨(assembleBuffer (b ++ c)).buffer,
           ns ++ (assembleBuffer (b ++ c)).notes, false⟩ := by
      unfold dataReceived
      simp [hSr]
    rw [List.foldl_cons, hstep]
    have hidem := assembleBuffer_idem (b ++ c).length (b ++ c) le_rfl hSr
    have happ := assembleBuffer_append (b ++ c).length (b ++ c) cs.flatten le_rfl hSr
    have hok' : (assembleBuffer ((assembleBuffer (b ++ c)).buffer ++ cs.flatten)).raised
        = false := by
      rw [hassoc, happ] at hok
      exact hok
    rw [ih (assembleBuffer (b ++ c)).buffer (ns ++ (assembleBuffer (b ++ c)).notes)
      hidem hok']
    rw [hassoc, happ]
    simp [List.append_assoc]

/-- Claim C2: for every sequence of valid packets and every partition of
their concatenated bytes into chunks, delivering the chunks in order to
`data_received` produces exactly the packets' update notifications, in
the original packet order, and leaves the buffer empty. -/
theorem C2_reassembly (pls : List (List Nat)) (msgs : List Msg)
    (hvalid : validList pls msgs = true)
    (cs : List (List Nat)) (hchunks : cs.flatten = streamOf pls) :
    processChunks cs = ⟨[], msgs, false⟩ := by
  unfold processChunks
  have hstream := assembleBuffer_stream pls msgs hvalid
  have hfold := foldl_dataReceived cs [] [] assembleBuffer_nil
    (by rw [List.nil_append, hchunks, hstream])
  rw [List.nil_append, hchunks, hstream] at hfold
  simpa using hfold

/-- Claim C2 (witness): two packets (`PWR01`, `MVL32`) split at byte 7
deliver exactly their two notifications in order. -/
theorem C2_reassembly_witness :
    validList [encodeAscii "!1PWR01\x1a", encodeAscii "!1MVL32\x1a"]
        [("main", "power", CmdValue.s "on"), ("main", "volume", CmdValue.num 50)] = true
    ∧ [(streamOf [encodeAscii "!1PWR01\x1a", encodeAscii "!1MVL32\x1a"]).take 7,
        (streamOf [encodeAscii "!1PWR01\x1a", encodeAscii "!1MVL32\x1a"]).drop 7].flatten
        = streamOf [encodeAscii "!1PWR01\x1a", encodeAscii "!1MVL32\x1a"]
    ∧ processChunks
        [(streamOf [encodeAscii "!1PWR01\x1a", encodeAscii "!1MVL32\x1a"]).take 7,
         (streamOf [encodeAscii "!1PWR01\x1a", encodeAscii "!1MVL32\x1a"]).drop 7]
        = ⟨[], [("main", "power", CmdValue.s "on"),
                ("main", "volume", CmdValue.num 50)], false⟩ :=
  ⟨by decide, by decide,
    C2_reassembly [encodeAscii "!1PWR01\x1a", encodeAscii "!1MVL32\x1a"]
      [("main", "power", CmdValue.s "on"), ("main", "volume", CmdValue.num 50)]
      (by decide)
      [(streamOf [encodeAscii "!1PWR01\x1a", encodeAscii "!1MVL32\x1a"]).take 7,
       (streamOf [encodeAscii "!1PWR01\x1a", encodeAscii "!1MVL32\x1a"]).drop 7]
      (by decide)⟩

/-- Claim C3: whenever the packet at the buffer front has a well-formed
header and its declared payload is present, the handler advances the
buffer by exactly `16 + data_size` bytes and emits one notification iff
the payload decodes, regardless of decode success; in particular a
corrupted packet (correct header, undecodable payload) between two valid
packets yields exactly the two valid notifications and an empty,
correctly aligned buffer. -/
theorem C3_frame_isolation :
    (∀ (buf : List Nat) (hd : EHeader), 16 ≤ buf.length →
      parseHeader (buf.take 16) = some hd → hd.dataSize ≤ buf.length - 16 →
      assembleBuffer buf =
        ⟨(assembleBuffer (buf.drop (16 + hd.dataSize))).buffer,
         (payloadToMsg ((buf.drop 16).take hd.dataSize)).toList
           ++ (assembleBuffer (buf.drop (16 + hd.dataSize))).notes,
         (assembleBuffer (buf.drop (16 + hd.dataSize))).raised⟩)
    ∧ (∀ (pl1 bad pl2 : List Nat) (m1 m2 : Msg),
      payloadToMsg pl1 = some m1 → pl1.length < 4294967296 →
      payloadToMsg bad = none → bad.length < 4294967296 →
      payloadToMsg pl2 = some m2 → pl2.length < 4294967296 →
      assembleBuffer (mkPacket pl1 ++ mkPacket bad ++ mkPacket pl2)
        = ⟨[], [m1, m2], false⟩) := by
  constructor
  · intro buf hd h16 hph hds
    have hfr := assembleBuffer_eq_frame buf hd h16 hph hds
    by_cases hr1 : (buf.drop (16 + hd.dataSize)).length ≠ 0
    · rw [hfr, if_pos hr1]
    · rw [hfr, if_neg hr1]
      have hnil : buf.drop (16 + hd.dataSize) = [] :=
        List.eq_nil_of_length_eq_zero (by omega)
      rw [hnil, assembleBuffer_nil]
      simp
  · intro pl1 bad pl2 m1 m2 h1 l1 hb lb h2 l2
    have s1 : assembleBuffer (mkPacket pl1) = ⟨[], [m1], false⟩ := by
      rw [assembleBuffer_single pl1 l1, h1]
      rfl
    have sb : assembleBuffer (mkPacket bad) = ⟨[], [], false⟩ := by
      rw [assembleBuffer_single bad lb, hb]
      rfl
    have s2 : assembleBuffer (mkPacket pl2) = ⟨[], [m2], false⟩ := by
      rw [assembleBuffer_single pl2 l2, h2]
      rfl
    have a2 : assembleBuffer (mkPacket bad ++ mkPacket pl2) = ⟨[], [m2], false⟩ := by
      have happ := assembleBuffer_append (mkPacket bad).length (mkPacket bad)
        (mkPacket pl2) le_rfl (by rw [sb])
      rw [happ, sb]
      simp only [List.nil_append]
      rw [s2]
    rw [List.append_assoc]
    have happ := assembleBuffer_append (mkPacket pl1).length (mkPacket pl1)
      (mkPacket bad ++ mkPacket pl2) le_rfl (by rw [s1])
    rw [happ, s1]
    simp only [List.nil_append]
    rw [a2]
    rfl

/-- Claim C3 (witness): the frame-advance equation at a concrete valid
packet buffer, and the corrupted sandwich at concrete packets. -/
theorem C3_frame_isolation_witness :
    (16 ≤ (mkPacket (encodeAscii "!1PWR01\x1a")).length
      ∧ parseHeader ((mkPacket (encodeAscii "!1PWR01\x1a")).take 16)
          = some ⟨16, 8⟩
      ∧ (⟨16, 8⟩ : EHeader).dataSize
          ≤ (mkPacket (encodeAscii "!1PWR01\x1a")).length - 16
      ∧ assembleBuffer (mkPacket (encodeAscii "!1PWR01\x1a")) =
          ⟨(assembleBuffer ((mkPacket (encodeAscii "!1PWR01\x1a")).drop (16 + 8))).buffer,
           (payloadToMsg (((mkPacket (encodeAscii "!1PWR01\x1a")).drop 16).take 8)).toList
             ++ (assembleBuffer ((mkPacket (encodeAscii "!1PWR01\x1a")).drop (16 + 8))).notes,
           (assembleBuffer ((mkPacket (encodeAscii "!1PWR01\x1a")).drop (16 + 8))).raised⟩)
    ∧ assembleBuffer (mkPacket (encodeAscii "!1PWR01\x1a")
          ++ mkPacket (encodeAscii "garbage")
          ++ mkPacket (encodeAscii "!1MVL32\x1a"))
        = ⟨[], [("main", "power", CmdValue.s "on"),
                ("main", "volume", CmdValue.num 50)], false⟩ :=
  ⟨⟨by decide, by decide, by decide,
    C3_frame_isolation.1 (mkPacket (encodeAscii "!1PWR01\x1a")) ⟨16, 8⟩
      (by decide) (by decide) (by decide)⟩,
   C3_frame_isolation.2 (encodeAscii "!1PWR01\x1a") (encodeAscii "garbage")
      (encodeAscii "!1MVL32\x1a") ("main", "power", CmdValue.s "on")
      ("main", "volume", CmdValue.num 50)
      (by decide) (by decide) (by decide) (by decide) (by decide) (by decide)⟩

/-- Claim C9: when the 16 bytes at the buffer front fail `parse_header`
(bad magic or header size), the handler consumes nothing, delivers
nothing, and the assertion error escapes `data_received` (the `raised`
flag): the stream is treated as unrecoverable — the event loop's fatal
error handling then closes the transport — and the handler never
silently skips the malformed bytes using an untrusted size. -/
theorem C9_malformed_header (buf : List Nat) (h16 : 16 ≤ buf.length)
    (hbad : parseHeader (buf.take 16) = none) :
    assembleBuffer buf = ⟨buf, [], true⟩ :=
  assembleBuffer_eq_none buf h16 hbad

/-- Claim C9 (witness): a buffer of sixteen zero bytes has a malformed
header; the handler raises and leaves the buffer unchanged. -/
theorem C9_malformed_header_witness :
    16 ≤ (List.replicate 16 0).length
    ∧ parseHeader ((List.replicate 16 0).take 16) = none
    ∧ assembleBuffer (List.replicate 16 0) = ⟨List.replicate 16 0, [], true⟩ :=
  ⟨by decide, by decide, C9_malformed_header _ (by decide) (by decide)⟩

end Pyeiscp
